import Mathlib

/-!
Shallow embedding of the whiteboard repository's history (redo/undo) plugin,
copy/paste plugin, and drawing-engine pointer handlers, together with proofs
about the frozen specification claims.

Conventions of the embedding:
* fabric objects are identified by natural numbers (`ObjId`); the mutable
  attribute store of all objects is a function `ObjId → Attrs` carried in the
  state (objects are shared mutable records in the source, referenced both by
  the canvas and by history snapshots).
* a JavaScript number-or-undefined attribute is `Option Int` (`none` models
  `undefined`).
* the vueuse `createEventHook` registry is a list of handler functions; since
  the plugin only ever registers one distinct handler per hook, the registry
  collapses to the number of registered copies of that handler (`Nat`).
  `on fn` appends (count + 1), `off fn` removes one occurrence
  (count - 1, saturating), `trigger` runs the handler once per copy.
  `WhiteBoard.initHook` returns `pause := off` and `resume := on`.
* stacks are Lean lists with the head as the array tail (push = cons,
  pop = head/tail), mirroring `Array.prototype.push/pop`.
-/

namespace IconBoard

abbrev ObjId := Nat

/-- The record destructured out of `snapshot.original` by redo/undo
(`angle`, `scaleX`, `scaleY`, `left`, `top`); a missing key is `none`. -/
structure Original where
  angle : Option Int
  scaleX : Option Int
  scaleY : Option Int
  left : Option Int
  top : Option Int
  deriving DecidableEq, Repr

/-- The empty record `{}` used for `original ?? {}` and for the
`undoOriginal` / `redoOriginal` initial value in the source. -/
def emptyOriginal : Original := ⟨none, none, none, none, none⟩

/-- Attributes of a fabric object: the five attributes touched by transform
replay plus representative other attributes (width, height, stroke) that
replay must leave alone. -/
structure Attrs where
  angle : Option Int
  scaleX : Option Int
  scaleY : Option Int
  left : Option Int
  top : Option Int
  width : Option Int
  height : Option Int
  stroke : Option Int
  deriving DecidableEq, Repr

def defaultAttrs : Attrs := ⟨none, none, none, none, none, none, none, none⟩

/-- Read the five transform attributes of an object
(`const { angle, scaleX, scaleY, left, top } = target`). -/
def fiveOf (a : Attrs) : Original := ⟨a.angle, a.scaleX, a.scaleY, a.left, a.top⟩

/-- The five `target.set(...)` calls of the replay switch's default case:
overwrite the five transform attributes, keep everything else. -/
def setFive (o : Original) (a : Attrs) : Attrs :=
  { a with angle := o.angle, scaleX := o.scaleX, scaleY := o.scaleY,
           left := o.left, top := o.top }

/-- `Snapshot.action` of `redo.ts`. -/
inductive Action
  | add
  | remove
  | scaleX
  | scaleY
  | scale
  | drag
  | rotate
  | group
  | ungroup
  deriving DecidableEq, Repr

/-- Actions handled by the `default:` branch of the replay switch
(everything except add/remove/group/ungroup). -/
def isTransformAction : Action → Bool
  | .add => false
  | .remove => false
  | .group => false
  | .ungroup => false
  | _ => true

/-- `interface Snapshot` of `redo.ts`. -/
structure Snapshot where
  action : Action
  target : ObjId
  original : Option Original
  deriving DecidableEq, Repr

/-- Combined state of the canvas and the RedoPlugin closure.
`addListeners` / `removeListeners` etc. count how many copies of the plugin's
recorder handler are registered on the corresponding event hook.
`groupCalls` / `ungroupCalls` trace invocations of `context.group()` /
`context.ungroup()` by the replay. -/
structure PState where
  canvas : List ObjId
  attrs : ObjId → Attrs
  activeObject : Option ObjId
  redoSnapshot : List Snapshot
  undoSnapshot : List Snapshot
  addListeners : Nat
  removeListeners : Nat
  modifiedListeners : Nat
  groupedListeners : Nat
  ungroupedListeners : Nat
  groupCalls : Nat
  ungroupCalls : Nat

/-- `recordRedo(snapshot, clearUndo = true)`. -/
def recordRedo (s : Snapshot) (clearUndo : Bool) (st : PState) : PState :=
  let st := { st with redoSnapshot := s :: st.redoSnapshot }
  if clearUndo then { st with undoSnapshot := [] } else st

/-- `recordUndo(snapshot)`. -/
def recordUndo (s : Snapshot) (st : PState) : PState :=
  { st with undoSnapshot := s :: st.undoSnapshot }

/-- Body of the `context.onObjectAdded` subscriber. -/
def addRecorder (x : ObjId) (st : PState) : PState :=
  recordRedo ⟨.add, x, none⟩ true st

/-- Body of the `context.onObjectRemoved` subscriber. -/
def removeRecorder (x : ObjId) (st : PState) : PState :=
  recordRedo ⟨.remove, x, none⟩ true st

/-- Body of the `context.onObjectModified` subscriber (action and original
come from the fabric transform attached to the event). -/
def modifiedRecorder (a : Action) (x : ObjId) (o : Original) (st : PState) : PState :=
  recordRedo ⟨a, x, some o⟩ true st

/-- Body of the `context.onGrouped` subscriber — present in the source only
as commented-out code, so it is never registered. -/
def groupRecorder (x : ObjId) (st : PState) : PState :=
  recordRedo ⟨.group, x, none⟩ true st

/-- Body of the `context.onUngrouped` subscriber — likewise commented out. -/
def ungroupRecorder (x : ObjId) (st : PState) : PState :=
  recordRedo ⟨.ungroup, x, none⟩ true st

/-- Run a handler once per registered copy (`EventHook.trigger`). -/
def applyN (n : Nat) (f : PState → PState) (st : PState) : PState :=
  match n with
  | 0 => st
  | n + 1 => applyN n f (f st)

/-- Trigger the object-added hook. -/
def fireAdded (x : ObjId) (st : PState) : PState :=
  applyN st.addListeners (addRecorder x) st

/-- Trigger the object-removed hook. -/
def fireRemoved (x : ObjId) (st : PState) : PState :=
  applyN st.removeListeners (removeRecorder x) st

/-- Trigger the object-modified hook. -/
def fireModified (a : Action) (x : ObjId) (o : Original) (st : PState) : PState :=
  applyN st.modifiedListeners (modifiedRecorder a x o) st

/-- Trigger the grouped hook (after `WhiteBoard.group()` succeeds). -/
def fireGrouped (x : ObjId) (st : PState) : PState :=
  applyN st.groupedListeners (groupRecorder x) st

/-- Trigger the ungrouped hook (after `WhiteBoard.ungroup()` succeeds). -/
def fireUngrouped (x : ObjId) (st : PState) : PState :=
  applyN st.ungroupedListeners (ungroupRecorder x) st

/-- `context.add(obj)`: fabric appends the object and fires `object:added`. -/
def contextAdd (x : ObjId) (st : PState) : PState :=
  fireAdded x { st with canvas := st.canvas ++ [x] }

/-- `context.remove(obj)`: fabric removes the object and fires
`object:removed` only when the object was actually on the canvas. -/
def contextRemove (x : ObjId) (st : PState) : PState :=
  if x ∈ st.canvas then fireRemoved x { st with canvas := st.canvas.erase x }
  else st

/-- `context.discardActiveObject()`. -/
def discardActiveObject (st : PState) : PState :=
  { st with activeObject := none }

/-- `context.setActiveObject(obj)`. -/
def setActiveObject (x : ObjId) (st : PState) : PState :=
  { st with activeObject := some x }

/-- `context.group()`: grouping of the active selection (canvas-library
geometry is outside the model, traced by `groupCalls`) followed by the
grouped hook trigger. -/
def contextGroup (st : PState) : PState :=
  fireGrouped (st.activeObject.getD 0) { st with groupCalls := st.groupCalls + 1 }

/-- `context.ungroup()`: symmetric to `contextGroup`. -/
def contextUngroup (st : PState) : PState :=
  fireUngrouped (st.activeObject.getD 0) { st with ungroupCalls := st.ungroupCalls + 1 }

/-- `pauseAdd()`: `off` removes one registered copy of the add recorder. -/
def pauseAdd (st : PState) : PState :=
  { st with addListeners := st.addListeners - 1 }

/-- `resumeAdd()`: `bindEvent` registers the add recorder again. -/
def resumeAdd (st : PState) : PState :=
  { st with addListeners := st.addListeners + 1 }

/-- `pauseRemove()`. -/
def pauseRemove (st : PState) : PState :=
  { st with removeListeners := st.removeListeners - 1 }

/-- `resumeRemove()`. -/
def resumeRemove (st : PState) : PState :=
  { st with removeListeners := st.removeListeners + 1 }

/-- The five `target.set` calls on `target` inside the replay switch's
default case. -/
def setTransformAttrs (x : ObjId) (o : Original) (st : PState) : PState :=
  { st with attrs := Function.update st.attrs x (setFive o (st.attrs x)) }

/-- `redo()` of `redo.ts`: pop the redo stack; if a snapshot was there, pause
the add/remove recorders, apply the inverse of the snapshot's action, record
the inverse on the undo stack, and resume the recorders.
For a single-object target `WhiteBoard.selectionTransform` reduces to one
callback invocation and the `onSelection` callback does not run. -/
def redo (st : PState) : PState :=
  match st.redoSnapshot with
  | [] => st
  | snapshot :: rest =>
    let st := { st with redoSnapshot := rest }
    let st := pauseAdd (pauseRemove st)
    let step : PState × Original :=
      match snapshot.action with
      | .add => (discardActiveObject (contextRemove snapshot.target st), emptyOriginal)
      | .remove => (contextAdd snapshot.target st, emptyOriginal)
      | .group => (contextUngroup st, emptyOriginal)
      | .ungroup => (contextGroup st, emptyOriginal)
      | _ => (setTransformAttrs snapshot.target (snapshot.original.getD emptyOriginal) st,
              fiveOf (st.attrs snapshot.target))
    let st := recordUndo ⟨snapshot.action, snapshot.target, some step.2⟩ step.1
    resumeRemove (resumeAdd st)

/-- `undo()` of `redo.ts`: pop the undo stack; if a snapshot was there, pause
the add/remove recorders, apply the inverse, push the inverse snapshot onto
the redo stack with `clearUndo = false`, and resume the recorders.
The `remove` case of the source contains an extra `resumeRemove()` call
before the final pair of resumes; it is reproduced faithfully here. -/
def undo (st : PState) : PState :=
  match st.undoSnapshot with
  | [] => st
  | snapshot :: rest =>
    let st := { st with undoSnapshot := rest }
    let st := pauseAdd (pauseRemove st)
    let step : PState × Original :=
      match snapshot.action with
      | .add => (contextAdd snapshot.target st, emptyOriginal)
      | .remove =>
          (resumeRemove (discardActiveObject (contextRemove snapshot.target st)),
           emptyOriginal)
      | .group => (contextGroup st, emptyOriginal)
      | .ungroup => (contextUngroup st, emptyOriginal)
      | _ => (setTransformAttrs snapshot.target (snapshot.original.getD emptyOriginal) st,
              fiveOf (st.attrs snapshot.target))
    let st := recordRedo ⟨snapshot.action, snapshot.target, some step.2⟩ false step.1
    resumeRemove (resumeAdd st)

/-- `WhiteBoard.remove(...object)`: fall back to the active object when no
argument is given; when a target exists, remove each object and discard the
active selection. -/
def wbRemove (args : List ObjId) (st : PState) : PState :=
  let target : List ObjId := if args ≠ [] then args else st.activeObject.toList
  if target ≠ [] then
    discardActiveObject (target.foldl (fun s x => contextRemove x s) st)
  else st

/-- A recorded user mutation: an add, a remove, or an interactive transform
(the latter sets the five transform attributes and fires `object:modified`
with the pre-transform values as `transform.original`). -/
inductive UserOp
  | add (x : ObjId)
  | remove (x : ObjId)
  | transform (a : Action) (x : ObjId) (v : Original)
  deriving DecidableEq, Repr

/-- Apply a user mutation to the canvas, recording it through the event
hooks exactly as the live system does. -/
def applyUserOp (st : PState) : UserOp → PState
  | .add x => contextAdd x st
  | .remove x => wbRemove [x] st
  | .transform a x v =>
      let old := fiveOf (st.attrs x)
      fireModified a x old
        { st with attrs := Function.update st.attrs x (setFive v (st.attrs x)) }

def applyUserOps (st : PState) : List UserOp → PState
  | [] => st
  | op :: ops => applyUserOps (applyUserOp st op) ops

/-- A user mutation is recorded when its event actually fires: a remove needs
its target on the canvas, a transform carries a genuine transform action. -/
def opRecorded (st : PState) : UserOp → Bool
  | .add _ => true
  | .remove x => decide (x ∈ st.canvas)
  | .transform a _ _ => isTransformAction a

def opsRecorded (st : PState) : List UserOp → Bool
  | [] => true
  | op :: ops => opRecorded st op && opsRecorded (applyUserOp st op) ops

/-- Plugin installation (`whiteBoard.use(Redo)`): subscribe the modified, add
and remove recorders; the grouped/ungrouped subscriptions are commented out
in the source and therefore not made. -/
def pluginInit (st : PState) : PState :=
  { st with modifiedListeners := st.modifiedListeners + 1,
            addListeners := st.addListeners + 1,
            removeListeners := st.removeListeners + 1 }

/-- A whiteboard before any plugin is installed. -/
def emptyBoard : PState :=
  { canvas := [], attrs := fun _ => defaultAttrs, activeObject := none,
    redoSnapshot := [], undoSnapshot := [],
    addListeners := 0, removeListeners := 0, modifiedListeners := 0,
    groupedListeners := 0, ungroupedListeners := 0,
    groupCalls := 0, ungroupCalls := 0 }

/-- A whiteboard with the history plugin installed. -/
def initState : PState := pluginInit emptyBoard

/-- The snapshot that a replay of `s` pushes onto the opposite stack. -/
def replayRecord (s : Snapshot) (st : PState) : Snapshot :=
  ⟨s.action, s.target,
   some (if isTransformAction s.action then fiveOf (st.attrs s.target) else emptyOriginal)⟩

/-! ### Characterization lemmas for single calls -/

theorem redo_nil (st : PState) (h : st.redoSnapshot = []) : redo st = st := by
  rcases st with ⟨c, a, ao, rs, us, al, rl, ml, gl, ul, gc, uc⟩
  dsimp only at h
  subst h
  rfl

theorem undo_nil (st : PState) (h : st.undoSnapshot = []) : undo st = st := by
  rcases st with ⟨c, a, ao, rs, us, al, rl, ml, gl, ul, gc, uc⟩
  dsimp only at h
  subst h
  rfl

theorem redo_add_eq (st : PState) (x : ObjId) (o : Option Original) (rest : List Snapshot)
    (hr : st.redoSnapshot = ⟨.add, x, o⟩ :: rest)
    (ha : st.addListeners = 1) (hm : st.removeListeners = 1) :
    redo st = { st with redoSnapshot := rest,
                        canvas := st.canvas.erase x,
                        activeObject := none,
                        undoSnapshot := ⟨.add, x, some emptyOriginal⟩ :: st.undoSnapshot } := by
  rcases st with ⟨c, a, ao, rs, us, al, rl, ml, gl, ul, gc, uc⟩
  dsimp only at hr ha hm
  subst hr; subst ha; subst hm
  by_cases hx : x ∈ c
  · simp [redo, pauseAdd, pauseRemove, resumeAdd, resumeRemove, contextRemove,
      fireRemoved, applyN, discardActiveObject, recordUndo, hx]
  · simp [redo, pauseAdd, pauseRemove, resumeAdd, resumeRemove, contextRemove,
      fireRemoved, applyN, discardActiveObject, recordUndo, hx, List.erase_of_not_mem hx]

theorem redo_remove_eq (st : PState) (x : ObjId) (o : Option Original) (rest : List Snapshot)
    (hr : st.redoSnapshot = ⟨.remove, x, o⟩ :: rest)
    (ha : st.addListeners = 1) (hm : 1 ≤ st.removeListeners) :
    redo st = { st with redoSnapshot := rest,
                        canvas := st.canvas ++ [x],
                        undoSnapshot := ⟨.remove, x, some emptyOriginal⟩ :: st.undoSnapshot } := by
  rcases st with ⟨c, a, ao, rs, us, al, rl, ml, gl, ul, gc, uc⟩
  dsimp only at hr ha hm
  subst hr; subst ha
  have hrl : rl - 1 + 1 = rl := Nat.succ_pred_eq_of_pos hm
  simp [redo, pauseAdd, pauseRemove, resumeAdd, resumeRemove, contextAdd,
    fireAdded, applyN, recordUndo, hrl]

theorem redo_group_eq (st : PState) (x : ObjId) (o : Option Original) (rest : List Snapshot)
    (hr : st.redoSnapshot = ⟨.group, x, o⟩ :: rest)
    (ha : st.addListeners = 1) (hm : st.removeListeners = 1)
    (hu : st.ungroupedListeners = 0) :
    redo st = { st with redoSnapshot := rest,
                        ungroupCalls := st.ungroupCalls + 1,
                        undoSnapshot := ⟨.group, x, some emptyOriginal⟩ :: st.undoSnapshot } := by
  rcases st with ⟨c, a, ao, rs, us, al, rl, ml, gl, ul, gc, uc⟩
  dsimp only at hr ha hm hu
  subst hr; subst ha; subst hm; subst hu
  simp [redo, pauseAdd, pauseRemove, resumeAdd, resumeRemove, contextUngroup,
    fireUngrouped, applyN, recordUndo]

theorem redo_ungroup_eq (st : PState) (x : ObjId) (o : Option Original) (rest : List Snapshot)
    (hr : st.redoSnapshot = ⟨.ungroup, x, o⟩ :: rest)
    (ha : st.addListeners = 1) (hm : st.removeListeners = 1)
    (hg : st.groupedListeners = 0) :
    redo st = { st with redoSnapshot := rest,
                        groupCalls := st.groupCalls + 1,
                        undoSnapshot := ⟨.ungroup, x, some emptyOriginal⟩ :: st.undoSnapshot } := by
  rcases st with ⟨c, a, ao, rs, us, al, rl, ml, gl, ul, gc, uc⟩
  dsimp only at hr ha hm hg
  subst hr; subst ha; subst hm; subst hg
  simp [redo, pauseAdd, pauseRemove, resumeAdd, resumeRemove, contextGroup,
    fireGrouped, applyN, recordUndo]

theorem redo_transform_eq (st : PState) (act : Action) (x : ObjId) (o : Option Original)
    (rest : List Snapshot)
    (hr : st.redoSnapshot = ⟨act, x, o⟩ :: rest)
    (ht : isTransformAction act = true)
    (ha : st.addListeners = 1) (hm : st.removeListeners = 1) :
    redo st = { st with redoSnapshot := rest,
                        attrs := Function.update st.attrs x
                          (setFive (o.getD emptyOriginal) (st.attrs x)),
                        undoSnapshot := ⟨act, x, some (fiveOf (st.attrs x))⟩ :: st.undoSnapshot } := by
  rcases st with ⟨c, a, ao, rs, us, al, rl, ml, gl, ul, gc, uc⟩
  dsimp only at hr ha hm
  subst hr; subst ha; subst hm
  cases act <;> simp_all [redo, pauseAdd, pauseRemove, resumeAdd, resumeRemove,
    setTransformAttrs, recordUndo, isTransformAction]

theorem undo_add_eq (st : PState) (x : ObjId) (o : Option Original) (rest : List Snapshot)
    (hr : st.undoSnapshot = ⟨.add, x, o⟩ :: rest)
    (ha : st.addListeners = 1) (hm : st.removeListeners = 1) :
    undo st = { st with undoSnapshot := rest,
                        canvas := st.canvas ++ [x],
                        redoSnapshot := ⟨.add, x, some emptyOriginal⟩ :: st.redoSnapshot } := by
  rcases st with ⟨c, a, ao, rs, us, al, rl, ml, gl, ul, gc, uc⟩
  dsimp only at hr ha hm
  subst hr; subst ha; subst hm
  simp [undo, pauseAdd, pauseRemove, resumeAdd, resumeRemove, contextAdd,
    fireAdded, applyN, recordRedo]

theorem undo_remove_eq (st : PState) (x : ObjId) (o : Option Original) (rest : List Snapshot)
    (hr : st.undoSnapshot = ⟨.remove, x, o⟩ :: rest)
    (ha : st.addListeners = 1) (hm : st.removeListeners = 1) :
    undo st = { st with undoSnapshot := rest,
                        canvas := st.canvas.erase x,
                        activeObject := none,
                        removeListeners := 2,
                        redoSnapshot := ⟨.remove, x, some emptyOriginal⟩ :: st.redoSnapshot } := by
  rcases st with ⟨c, a, ao, rs, us, al, rl, ml, gl, ul, gc, uc⟩
  dsimp only at hr ha hm
  subst hr; subst ha; subst hm
  by_cases hx : x ∈ c
  · simp [undo, pauseAdd, pauseRemove, resumeAdd, resumeRemove, contextRemove,
      fireRemoved, applyN, discardActiveObject, recordRedo, hx]
  · simp [undo, pauseAdd, pauseRemove, resumeAdd, resumeRemove, contextRemove,
      fireRemoved, applyN, discardActiveObject, recordRedo, hx, List.erase_of_not_mem hx]

theorem undo_group_eq (st : PState) (x : ObjId) (o : Option Original) (rest : List Snapshot)
    (hr : st.undoSnapshot = ⟨.group, x, o⟩ :: rest)
    (ha : st.addListeners = 1) (hm : st.removeListeners = 1)
    (hg : st.groupedListeners = 0) :
    undo st = { st with undoSnapshot := rest,
                        groupCalls := st.groupCalls + 1,
                        redoSnapshot := ⟨.group, x, some emptyOriginal⟩ :: st.redoSnapshot } := by
  rcases st with ⟨c, a, ao, rs, us, al, rl, ml, gl, ul, gc, uc⟩
  dsimp only at hr ha hm hg
  subst hr; subst ha; subst hm; subst hg
  simp [undo, pauseAdd, pauseRemove, resumeAdd, resumeRemove, contextGroup,
    fireGrouped, applyN, recordRedo]

theorem undo_ungroup_eq (st : PState) (x : ObjId) (o : Option Original) (rest : List Snapshot)
    (hr : st.undoSnapshot = ⟨.ungroup, x, o⟩ :: rest)
    (ha : st.addListeners = 1) (hm : st.removeListeners = 1)
    (hu : st.ungroupedListeners = 0) :
    undo st = { st with undoSnapshot := rest,
                        ungroupCalls := st.ungroupCalls + 1,
                        redoSnapshot := ⟨.ungroup, x, some emptyOriginal⟩ :: st.redoSnapshot } := by
  rcases st with ⟨c, a, ao, rs, us, al, rl, ml, gl, ul, gc, uc⟩
  dsimp only at hr ha hm hu
  subst hr; subst ha; subst hm; subst hu
  simp [undo, pauseAdd, pauseRemove, resumeAdd, resumeRemove, contextUngroup,
    fireUngrouped, applyN, recordRedo]

theorem undo_transform_eq (st : PState) (act : Action) (x : ObjId) (o : Option Original)
    (rest : List Snapshot)
    (hr : st.undoSnapshot = ⟨act, x, o⟩ :: rest)
    (ht : isTransformAction act = true)
    (ha : st.addListeners = 1) (hm : st.removeListeners = 1) :
    undo st = { st with undoSnapshot := rest,
                        attrs := Function.update st.attrs x
                          (setFive (o.getD emptyOriginal) (st.attrs x)),
                        redoSnapshot := ⟨act, x, some (fiveOf (st.attrs x))⟩ :: st.redoSnapshot } := by
  rcases st with ⟨c, a, ao, rs, us, al, rl, ml, gl, ul, gc, uc⟩
  dsimp only at hr ha hm
  subst hr; subst ha; subst hm
  cases act <;> simp_all [undo, pauseAdd, pauseRemove, resumeAdd, resumeRemove,
    setTransformAttrs, recordRedo, isTransformAction]

theorem applyUserOp_add_eq (st : PState) (x : ObjId) (ha : st.addListeners = 1) :
    applyUserOp st (.add x) =
      { st with canvas := st.canvas ++ [x],
                redoSnapshot := ⟨.add, x, none⟩ :: st.redoSnapshot,
                undoSnapshot := [] } := by
  rcases st with ⟨c, a, ao, rs, us, al, rl, ml, gl, ul, gc, uc⟩
  dsimp only at ha
  subst ha
  simp [applyUserOp, contextAdd, fireAdded, applyN, addRecorder, recordRedo]

theorem applyUserOp_remove_eq (st : PState) (x : ObjId) (hm : st.removeListeners = 1)
    (hx : x ∈ st.canvas) :
    applyUserOp st (.remove x) =
      { st with canvas := st.canvas.erase x,
                activeObject := none,
                redoSnapshot := ⟨.remove, x, none⟩ :: st.redoSnapshot,
                undoSnapshot := [] } := by
  rcases st with ⟨c, a, ao, rs, us, al, rl, ml, gl, ul, gc, uc⟩
  dsimp only at hm hx
  subst hm
  simp [applyUserOp, wbRemove, contextRemove, fireRemoved, applyN, removeRecorder,
    recordRedo, discardActiveObject, hx]

theorem applyUserOp_transform_eq (st : PState) (a : Action) (x : ObjId) (v : Original)
    (hmod : st.modifiedListeners = 1) :
    applyUserOp st (.transform a x v) =
      { st with attrs := Function.update st.attrs x (setFive v (st.attrs x)),
                redoSnapshot := ⟨a, x, some (fiveOf (st.attrs x))⟩ :: st.redoSnapshot,
                undoSnapshot := [] } := by
  rcases st with ⟨c, at_, ao, rs, us, al, rl, ml, gl, ul, gc, uc⟩
  dsimp only at hmod
  subst hmod
  simp [applyUserOp, fireModified, applyN, modifiedRecorder, recordRedo]

/-- Restoring the five captured attributes after a transform brings the
attribute record back exactly. -/
theorem setFive_fiveOf (v : Original) (b : Attrs) :
    setFive (fiveOf b) (setFive v b) = b := by
  cases b
  rfl

theorem coe_append_erase (l : List ObjId) (x : ObjId) :
    (((l ++ [x]).erase x : List ObjId) : Multiset ObjId) = (l : Multiset ObjId) := by
  rw [← Multiset.coe_erase, ← Multiset.coe_add, Multiset.coe_singleton, add_comm,
    Multiset.singleton_add, Multiset.erase_cons_head]

theorem coe_erase_append (l : List ObjId) (x : ObjId) (hx : x ∈ l) :
    ((l.erase x ++ [x] : List ObjId) : Multiset ObjId) = (l : Multiset ObjId) := by
  rw [← Multiset.coe_add, Multiset.coe_singleton, add_comm, Multiset.singleton_add,
    ← Multiset.coe_erase, Multiset.cons_erase (by exact_mod_cast hx)]

/-- Iterating a handler that preserves a numeric component preserves it. -/
theorem applyN_field (g : PState → Nat) (f : PState → PState)
    (hf : ∀ s, g (f s) = g s) : ∀ (n : Nat) (st : PState), g (applyN n f st) = g st := by
  intro n
  induction n with
  | zero => intro st; rfl
  | succ n ih => intro st; rw [applyN, ih, hf]

theorem recordRedo_listeners (s : Snapshot) (b : Bool) (st : PState) :
    (recordRedo s b st).addListeners = st.addListeners ∧
    (recordRedo s b st).removeListeners = st.removeListeners ∧
    (recordRedo s b st).modifiedListeners = st.modifiedListeners := by
  simp only [recordRedo]
  split <;> exact ⟨rfl, rfl, rfl⟩

theorem contextAdd_listeners (x : ObjId) (st : PState) :
    (contextAdd x st).addListeners = st.addListeners ∧
    (contextAdd x st).removeListeners = st.removeListeners ∧
    (contextAdd x st).modifiedListeners = st.modifiedListeners := by
  unfold contextAdd fireAdded
  exact ⟨applyN_field (fun s => s.addListeners) (addRecorder x)
           (fun s => (recordRedo_listeners _ _ s).1) _ _,
         applyN_field (fun s => s.removeListeners) (addRecorder x)
           (fun s => (recordRedo_listeners _ _ s).2.1) _ _,
         applyN_field (fun s => s.modifiedListeners) (addRecorder x)
           (fun s => (recordRedo_listeners _ _ s).2.2) _ _⟩

theorem contextRemove_listeners (x : ObjId) (st : PState) :
    (contextRemove x st).addListeners = st.addListeners ∧
    (contextRemove x st).removeListeners = st.removeListeners ∧
    (contextRemove x st).modifiedListeners = st.modifiedListeners := by
  unfold contextRemove
  split
  · unfold fireRemoved
    exact ⟨applyN_field (fun s => s.addListeners) (removeRecorder x)
             (fun s => (recordRedo_listeners _ _ s).1) _ _,
           applyN_field (fun s => s.removeListeners) (removeRecorder x)
             (fun s => (recordRedo_listeners _ _ s).2.1) _ _,
           applyN_field (fun s => s.modifiedListeners) (removeRecorder x)
             (fun s => (recordRedo_listeners _ _ s).2.2) _ _⟩
  · exact ⟨rfl, rfl, rfl⟩

/-- User mutations never touch the subscription registries. -/
theorem applyUserOp_listeners (st : PState) (op : UserOp) :
    (applyUserOp st op).addListeners = st.addListeners ∧
    (applyUserOp st op).removeListeners = st.removeListeners ∧
    (applyUserOp st op).modifiedListeners = st.modifiedListeners := by
  cases op with
  | add x => exact contextAdd_listeners x st
  | remove x =>
    have h : applyUserOp st (.remove x) = discardActiveObject (contextRemove x st) := by
      simp [applyUserOp, wbRemove]
    rw [h]
    exact ⟨(contextRemove_listeners x st).1, (contextRemove_listeners x st).2.1,
           (contextRemove_listeners x st).2.2⟩
  | transform a x v =>
    show (fireModified a x _ _).addListeners = _ ∧ _
    unfold fireModified
    exact ⟨applyN_field (fun s => s.addListeners) (modifiedRecorder a x _)
             (fun s => (recordRedo_listeners _ _ s).1) _ _,
           applyN_field (fun s => s.removeListeners) (modifiedRecorder a x _)
             (fun s => (recordRedo_listeners _ _ s).2.1) _ _,
           applyN_field (fun s => s.modifiedListeners) (modifiedRecorder a x _)
             (fun s => (recordRedo_listeners _ _ s).2.2) _ _⟩

/-- One `redo()` call undoes one recorded user mutation: if `u` agrees with
the post-mutation state on the redo stack, canvas membership and attributes,
then after `redo` it agrees with the pre-mutation state on all of them. -/
theorem redo_inverts_op (op : UserOp) (st u : PState)
    (h1 : st.addListeners = 1) (h2 : st.removeListeners = 1) (h3 : st.modifiedListeners = 1)
    (hop : opRecorded st op = true)
    (u1 : u.addListeners = 1) (u2 : u.removeListeners = 1)
    (hredo : u.redoSnapshot = (applyUserOp st op).redoSnapshot)
    (hcanvas : (u.canvas : Multiset ObjId) = ((applyUserOp st op).canvas : Multiset ObjId))
    (hattrs : u.attrs = (applyUserOp st op).attrs) :
    ((redo u).canvas : Multiset ObjId) = (st.canvas : Multiset ObjId) ∧
    (redo u).attrs = st.attrs ∧
    (redo u).redoSnapshot = st.redoSnapshot ∧
    (redo u).addListeners = 1 ∧ (redo u).removeListeners = 1 ∧
    (redo u).modifiedListeners = u.modifiedListeners := by
  cases op with
  | add x =>
    rw [applyUserOp_add_eq st x h1] at hredo hcanvas hattrs
    dsimp only at hredo hcanvas hattrs
    rw [redo_add_eq u x none _ hredo u1 u2]
    refine ⟨?_, hattrs, rfl, u1, u2, rfl⟩
    dsimp only
    rw [← Multiset.coe_erase, hcanvas, Multiset.coe_erase, coe_append_erase]
  | remove x =>
    have hx : x ∈ st.canvas := by
      simpa [opRecorded] using hop
    rw [applyUserOp_remove_eq st x h2 hx] at hredo hcanvas hattrs
    dsimp only at hredo hcanvas hattrs
    rw [redo_remove_eq u x none _ hredo u1 (le_of_eq u2.symm)]
    refine ⟨?_, hattrs, rfl, u1, u2, rfl⟩
    dsimp only
    rw [← Multiset.coe_add, Multiset.coe_singleton, add_comm, hcanvas,
      Multiset.singleton_add, ← Multiset.coe_erase,
      Multiset.cons_erase (show x ∈ (st.canvas : Multiset ObjId) by exact_mod_cast hx)]
  | transform a x v =>
    have ht : isTransformAction a = true := by
      simpa [opRecorded] using hop
    rw [applyUserOp_transform_eq st a x v h3] at hredo hcanvas hattrs
    dsimp only at hredo hcanvas hattrs
    rw [redo_transform_eq u a x (some (fiveOf (st.attrs x))) _ hredo ht u1 u2]
    refine ⟨hcanvas, ?_, rfl, u1, u2, rfl⟩
    dsimp only
    rw [hattrs, Option.getD_some, Function.update_same, setFive_fiveOf,
      Function.update_idem, Function.update_eq_self]

/-- N recorded user mutations followed by N `redo()` calls restore canvas
membership, the attribute store, the redo stack and the subscription counts. -/
theorem replay_restores (ops : List UserOp) :
    ∀ st : PState,
      st.addListeners = 1 → st.removeListeners = 1 → st.modifiedListeners = 1 →
      opsRecorded st ops = true →
      ((redo^[ops.length] (applyUserOps st ops)).canvas : Multiset ObjId) =
          (st.canvas : Multiset ObjId) ∧
      (redo^[ops.length] (applyUserOps st ops)).attrs = st.attrs ∧
      (redo^[ops.length] (applyUserOps st ops)).redoSnapshot = st.redoSnapshot ∧
      (redo^[ops.length] (applyUserOps st ops)).addListeners = 1 ∧
      (redo^[ops.length] (applyUserOps st ops)).removeListeners = 1 ∧
      (redo^[ops.length] (applyUserOps st ops)).modifiedListeners = 1 := by
  induction ops with
  | nil =>
    intro st h1 h2 h3 _
    exact ⟨rfl, rfl, rfl, h1, h2, h3⟩
  | cons op rest ih =>
    intro st h1 h2 h3 hrec
    have hco : opRecorded st op = true ∧ opsRecorded (applyUserOp st op) rest = true := by
      simpa [opsRecorded, Bool.and_eq_true] using hrec
    have hl := applyUserOp_listeners st op
    have IH := ih (applyUserOp st op) (by rw [hl.1, h1]) (by rw [hl.2.1, h2])
      (by rw [hl.2.2, h3]) hco.2
    have e1 : applyUserOps st (op :: rest) = applyUserOps (applyUserOp st op) rest := rfl
    have e2 : (op :: rest).length = rest.length + 1 := rfl
    rw [e1, e2, Function.iterate_succ_apply']
    obtain ⟨ic, ia, ir, i1, i2, i3⟩ := IH
    have R := redo_inverts_op op st _ h1 h2 h3 hco.1 i1 i2 ir ic ia
    exact ⟨R.1, R.2.1, R.2.2.1, R.2.2.2.1, R.2.2.2.2.1, by rw [R.2.2.2.2.2, i3]⟩

/-! ### Claim theorems -/

/-- C3: for every state in which `undo()` pops and applies a Snapshot, an
immediate `redo()` restores the canvas object graph (membership as a
multiset, the whole attribute store) exactly as before the `undo()`.
Moreover `undo()` pushes the pre-inverse snapshot onto the redo stack
without clearing the rest of either stack, and `redo()` pops it again.
The membership hypothesis for remove snapshots is the reachability
invariant: a remove snapshot sits on the undo stack only while its target
is back on the canvas. -/
theorem c3_redo_after_undo (st : PState) (s : Snapshot) (rest : List Snapshot)
    (h1 : st.addListeners = 1) (h2 : st.removeListeners = 1)
    (hg : st.groupedListeners = 0) (hu : st.ungroupedListeners = 0)
    (hs : st.undoSnapshot = s :: rest)
    (hmem : s.action = .remove → s.target ∈ st.canvas) :
    ((redo (undo st)).canvas : Multiset ObjId) = (st.canvas : Multiset ObjId) ∧
    (redo (undo st)).attrs = st.attrs ∧
    (undo st).redoSnapshot = replayRecord s st :: st.redoSnapshot ∧
    (undo st).undoSnapshot = rest ∧
    (redo (undo st)).redoSnapshot = st.redoSnapshot := by
  rcases s with ⟨act, x, o⟩
  cases act
  case add =>
    have e1 := undo_add_eq st x o rest hs h1 h2
    have e2 := redo_add_eq (undo st) x (some emptyOriginal) st.redoSnapshot
      (by rw [e1]) (by rw [e1]; exact h1) (by rw [e1]; exact h2)
    rw [e2, e1]
    refine ⟨?_, rfl, ?_, rfl, rfl⟩
    · dsimp only
      rw [coe_append_erase]
    · simp [replayRecord, isTransformAction]
  case remove =>
    have e1 := undo_remove_eq st x o rest hs h1 h2
    have e2 := redo_remove_eq (undo st) x (some emptyOriginal) st.redoSnapshot
      (by rw [e1]) (by rw [e1]; exact h1) (by rw [e1]; norm_num)
    rw [e2, e1]
    refine ⟨?_, rfl, ?_, rfl, rfl⟩
    · dsimp only
      rw [coe_erase_append _ _ (hmem rfl)]
    · simp [replayRecord, isTransformAction]
  case group =>
    have e1 := undo_group_eq st x o rest hs h1 h2 hg
    have e2 := redo_group_eq (undo st) x (some emptyOriginal) st.redoSnapshot
      (by rw [e1]) (by rw [e1]; exact h1) (by rw [e1]; exact h2) (by rw [e1]; exact hu)
    rw [e2, e1]
    exact ⟨rfl, rfl, by simp [replayRecord, isTransformAction], rfl, rfl⟩
  case ungroup =>
    have e1 := undo_ungroup_eq st x o rest hs h1 h2 hu
    have e2 := redo_ungroup_eq (undo st) x (some emptyOriginal) st.redoSnapshot
      (by rw [e1]) (by rw [e1]; exact h1) (by rw [e1]; exact h2) (by rw [e1]; exact hg)
    rw [e2, e1]
    exact ⟨rfl, rfl, by simp [replayRecord, isTransformAction], rfl, rfl⟩
  all_goals
    have e1 := undo_transform_eq st _ x o rest hs rfl h1 h2
    have e2 := redo_transform_eq (undo st) _ x (some (fiveOf (st.attrs x))) st.redoSnapshot
      (by rw [e1]) (by decide) (by rw [e1]; exact h1) (by rw [e1]; exact h2)
    rw [e2, e1]
    refine ⟨rfl, ?_, ?_, rfl, rfl⟩
    · dsimp only
      rw [Option.getD_some, Function.update_same, setFive_fiveOf, Function.update_idem,
        Function.update_eq_self]
    · simp [replayRecord, isTransformAction]

/-- C2 (amended): in this codebase `redo()` is the function that replays
inverses of freshly recorded user operations (the redo stack is where user
mutations are recorded; `undo()` reads the undo stack, which a fresh
recording clears). For every sequence of N recorded add/remove/transform
operations, calling `redo()` N times afterwards returns the canvas object
graph — membership as a multiset, and every object's attributes, hence
positions and sizes — to exactly its state before the N operations. -/
theorem c2_redo_reverts_ops (ops : List UserOp) (st : PState)
    (h1 : st.addListeners = 1) (h2 : st.removeListeners = 1)
    (h3 : st.modifiedListeners = 1) (hrec : opsRecorded st ops = true) :
    ((redo^[ops.length] (applyUserOps st ops)).canvas : Multiset ObjId) =
      (st.canvas : Multiset ObjId) ∧
    (redo^[ops.length] (applyUserOps st ops)).attrs = st.attrs :=
  ⟨(replay_restores ops st h1 h2 h3 hrec).1, (replay_restores ops st h1 h2 h3 hrec).2.1⟩

/-- C2 counterexample: the claim as stated uses `undo()`; after one recorded
add operation, one `undo()` call leaves the object on the canvas (the undo
stack is empty at that point, so `undo()` is a no-op), hence the canvas is
not returned to its pre-operation state. -/
theorem c2_undo_does_not_revert :
    opsRecorded initState [UserOp.add 0] = true ∧
    (undo^[1] (applyUserOps initState [UserOp.add 0])).canvas ≠ initState.canvas := by
  decide

/-- Any recorded user mutation empties the undo stack via `recordRedo`'s
default `clearUndo = true`. -/
theorem applyUserOp_clears_undo (st : PState) (op : UserOp)
    (h1 : st.addListeners = 1) (h2 : st.removeListeners = 1)
    (h3 : st.modifiedListeners = 1) (hop : opRecorded st op = true) :
    (applyUserOp st op).undoSnapshot = [] := by
  cases op with
  | add x => rw [applyUserOp_add_eq st x h1]
  | remove x =>
    have hx : x ∈ st.canvas := by simpa [opRecorded] using hop
    rw [applyUserOp_remove_eq st x h2 hx]
  | transform a x v => rw [applyUserOp_transform_eq st a x v h3]

/-- The stack effect of an `undo()` replay: the inverse snapshot is pushed
onto the redo stack without clearing it, and the undo stack only loses the
popped entry. -/
theorem undo_stack_effect (st : PState) (s : Snapshot) (rest : List Snapshot)
    (h1 : st.addListeners = 1) (h2 : st.removeListeners = 1)
    (hg : st.groupedListeners = 0) (hu : st.ungroupedListeners = 0)
    (hs : st.undoSnapshot = s :: rest) :
    (undo st).redoSnapshot = replayRecord s st :: st.redoSnapshot ∧
    (undo st).undoSnapshot = rest := by
  rcases s with ⟨act, x, o⟩
  cases act
  case add =>
    rw [undo_add_eq st x o rest hs h1 h2]
    exact ⟨by simp [replayRecord, isTransformAction], rfl⟩
  case remove =>
    rw [undo_remove_eq st x o rest hs h1 h2]
    exact ⟨by simp [replayRecord, isTransformAction], rfl⟩
  case group =>
    rw [undo_group_eq st x o rest hs h1 h2 hg]
    exact ⟨by simp [replayRecord, isTransformAction], rfl⟩
  case ungroup =>
    rw [undo_ungroup_eq st x o rest hs h1 h2 hu]
    exact ⟨by simp [replayRecord, isTransformAction], rfl⟩
  all_goals
    rw [undo_transform_eq st _ x o rest hs rfl h1 h2]
    exact ⟨by simp [replayRecord, isTransformAction], rfl⟩

/-- C4: every push onto the redo stack either comes from a fresh recording
(`recordRedo` with `clearUndo = true`, through a recorded user mutation),
which empties the undo stack, or from an `undo()` replay, which pushes the
inverse onto the opposite (redo) stack while clearing neither stack. -/
theorem c4_push_policy :
    (∀ (s : Snapshot) (st : PState),
        (recordRedo s true st).redoSnapshot = s :: st.redoSnapshot ∧
        (recordRedo s true st).undoSnapshot = [] ∧
        (recordRedo s false st).redoSnapshot = s :: st.redoSnapshot ∧
        (recordRedo s false st).undoSnapshot = st.undoSnapshot) ∧
    (∀ (st : PState) (op : UserOp),
        st.addListeners = 1 → st.removeListeners = 1 → st.modifiedListeners = 1 →
        opRecorded st op = true →
        (applyUserOp st op).undoSnapshot = []) ∧
    (∀ (st : PState) (s : Snapshot) (rest : List Snapshot),
        st.addListeners = 1 → st.removeListeners = 1 →
        st.groupedListeners = 0 → st.ungroupedListeners = 0 →
        st.undoSnapshot = s :: rest →
        (undo st).redoSnapshot = replayRecord s st :: st.redoSnapshot ∧
        (undo st).undoSnapshot = rest) := by
  refine ⟨?_, ?_, ?_⟩
  · intro s st
    refine ⟨?_, ?_, ?_, ?_⟩ <;> simp [recordRedo]
  · intro st op h1 h2 h3 hop
    exact applyUserOp_clears_undo st op h1 h2 h3 hop
  · intro st s rest h1 h2 hg hu hs
    exact undo_stack_effect st s rest h1 h2 hg hu hs

/-- C5 counterexample: from a state reached by one `undo()` call, a new
recorded user mutation leaves the redo stack non-empty (it pushes the new
snapshot there); the claim said the redo stack is emptied. -/
theorem c5_counterexample :
    (applyUserOp (undo (redo (applyUserOp initState (.add 0)))) (.add 1)).redoSnapshot
      ≠ [] := by
  decide

/-- C5 (amended): a new recorded user mutation (not itself a replay) empties
the undo stack — the stack `undo()` replays from — so the branch that
`redo()` had reverted can no longer be re-applied: an immediate `undo()`
is a no-op. -/
theorem c5_new_op_clears_undo (st : PState) (op : UserOp)
    (h1 : st.addListeners = 1) (h2 : st.removeListeners = 1)
    (h3 : st.modifiedListeners = 1) (hop : opRecorded st op = true) :
    (applyUserOp st op).undoSnapshot = [] ∧
    undo (applyUserOp st op) = applyUserOp st op :=
  ⟨applyUserOp_clears_undo st op h1 h2 h3 hop,
   undo_nil _ (applyUserOp_clears_undo st op h1 h2 h3 hop)⟩

/-- C1: the pause/resume discipline is broken by `undo()` on a `remove`
snapshot. With the recorders registered exactly once (as right after plugin
installation), the scenario: user adds object 0, user removes object 0,
`redo()` (re-adds 0), `undo()` (removes 0 again). The `remove` case of
`undo()` executes `resumeRemove()` twice — once inside the case and once at
the end — leaving the object-removed recorder registered twice instead of
once. From the corrupted state a later replay is polluted: after a new user
add of object 1, `redo()` pauses only one of the two remove recorders, so
the replay's own `context.remove` is recorded as a fresh snapshot on the
redo stack. -/
theorem c1_resume_twice :
    initState.removeListeners = 1 ∧
    (redo (applyUserOp (applyUserOp initState (.add 0)) (.remove 0))).removeListeners = 1 ∧
    (undo (redo (applyUserOp (applyUserOp initState (.add 0)) (.remove 0)))).removeListeners = 2 ∧
    (redo (applyUserOp (undo (redo (applyUserOp (applyUserOp initState (.add 0))
        (.remove 0)))) (.add 1))).redoSnapshot =
      ⟨.remove, 1, none⟩ :: ⟨.remove, 0, some emptyOriginal⟩ :: ⟨.add, 0, none⟩ :: [] := by
  decide

theorem recordRedo_calls (s : Snapshot) (b : Bool) (st : PState) :
    (recordRedo s b st).groupCalls = st.groupCalls ∧
    (recordRedo s b st).ungroupCalls = st.ungroupCalls := by
  simp only [recordRedo]
  split <;> exact ⟨rfl, rfl⟩

theorem contextUngroup_calls (st : PState) :
    (contextUngroup st).ungroupCalls = st.ungroupCalls + 1 ∧
    (contextUngroup st).groupCalls = st.groupCalls := by
  unfold contextUngroup fireUngrouped
  exact ⟨applyN_field (fun s => s.ungroupCalls) _
           (fun s => (recordRedo_calls _ _ s).2) _ _,
         applyN_field (fun s => s.groupCalls) _
           (fun s => (recordRedo_calls _ _ s).1) _ _⟩

theorem contextGroup_calls (st : PState) :
    (contextGroup st).groupCalls = st.groupCalls + 1 ∧
    (contextGroup st).ungroupCalls = st.ungroupCalls := by
  unfold contextGroup fireGrouped
  exact ⟨applyN_field (fun s => s.groupCalls) _
           (fun s => (recordRedo_calls _ _ s).1) _ _,
         applyN_field (fun s => s.ungroupCalls) _
           (fun s => (recordRedo_calls _ _ s).2) _ _⟩

/-- C6 counterexample: with the history plugin freshly installed, a group
mutation and an ungroup mutation (their hook triggers) push nothing onto
either history stack — the subscriptions that would record them are
commented out in the source. -/
theorem c6_counterexample :
    (contextGroup initState).redoSnapshot = [] ∧
    (contextGroup initState).undoSnapshot = [] ∧
    (contextUngroup initState).redoSnapshot = [] ∧
    (contextUngroup initState).undoSnapshot = [] := by
  decide

/-- C6 (amended): group and ungroup mutations are not intercepted — plugin
installation registers nothing on the grouped/ungrouped hooks and firing
those hooks with no subscriber leaves the state unchanged — while the
replay switch does invert them: `redo()` of a group snapshot calls
`context.ungroup()` and `redo()` of an ungroup snapshot calls
`context.group()`. -/
theorem c6_group_ungroup :
    (∀ st : PState, (pluginInit st).groupedListeners = st.groupedListeners ∧
        (pluginInit st).ungroupedListeners = st.ungroupedListeners) ∧
    (∀ (g : ObjId) (st : PState), st.groupedListeners = 0 → fireGrouped g st = st) ∧
    (∀ (g : ObjId) (st : PState), st.ungroupedListeners = 0 → fireUngrouped g st = st) ∧
    (∀ (st : PState) (s : Snapshot) (rest : List Snapshot),
        st.redoSnapshot = s :: rest → s.action = .group →
        (redo st).ungroupCalls = st.ungroupCalls + 1 ∧
        (redo st).groupCalls = st.groupCalls) ∧
    (∀ (st : PState) (s : Snapshot) (rest : List Snapshot),
        st.redoSnapshot = s :: rest → s.action = .ungroup →
        (redo st).groupCalls = st.groupCalls + 1 ∧
        (redo st).ungroupCalls = st.ungroupCalls) := by
  refine ⟨fun st => ⟨rfl, rfl⟩, ?_, ?_, ?_, ?_⟩
  · intro g st h
    unfold fireGrouped
    rw [h]
    rfl
  · intro g st h
    unfold fireUngrouped
    rw [h]
    rfl
  · intro st s rest hs ha
    rcases st with ⟨c, a2, ao, rs, us, al, rl, ml, gl, ul, gc, uc⟩
    rcases s with ⟨act, x, o⟩
    dsimp only at hs ha
    subst hs; subst ha
    simp only [redo, pauseAdd, pauseRemove, resumeAdd, resumeRemove, recordUndo]
    exact ⟨(contextUngroup_calls _).1, (contextUngroup_calls _).2⟩
  · intro st s rest hs ha
    rcases st with ⟨c, a2, ao, rs, us, al, rl, ml, gl, ul, gc, uc⟩
    rcases s with ⟨act, x, o⟩
    dsimp only at hs ha
    subst hs; subst ha
    simp only [redo, pauseAdd, pauseRemove, resumeAdd, resumeRemove, recordUndo]
    exact ⟨(contextGroup_calls _).1, (contextGroup_calls _).2⟩

/-! ### Copy/paste plugin (`copy.ts`) -/

/-- A cloned fabric object as the copy plugin sees it: position plus the
interaction/style flags `paste()` sets on the clone. -/
structure ClipObj where
  left : Int
  top : Int
  evented : Bool
  selectable : Bool
  strokeUniform : Bool
  cornerSize : Int
  strokeWidth : Int
  deriving DecidableEq, Repr

/-- State of the copy plugin closure together with the canvas parts it
touches. `clipboardObject` is the single-slot Clipboard Buffer. -/
structure CState where
  clipboardObject : Option ClipObj
  canvas : List ClipObj
  activeObject : Option ClipObj
  deriving DecidableEq, Repr

/-- `copy()`: clone the active object into the buffer (a clone is a value
copy here); no-op without an active object. -/
def copy (st : CState) : CState :=
  match st.activeObject with
  | none => st
  | some target => { st with clipboardObject := some target }

/-- The `cloned.set({...})` call of `paste()`. -/
def pasteClone (c : ClipObj) : ClipObj :=
  { c with left := c.left + 10, top := c.top + 10, evented := true,
           selectable := false, strokeUniform := true, cornerSize := 8,
           strokeWidth := 1 }

/-- `clipboardObject.top += 10; clipboardObject.left += 10`. -/
def advanceClipboard (c : ClipObj) : ClipObj :=
  { c with top := c.top + 10, left := c.left + 10 }

/-- `paste()`: no-op on an empty buffer; otherwise clone the buffer, offset
the clone by (+10,+10), add it to the canvas, advance the buffer by the same
delta, select the clone, and clear the buffer when `once` is set. -/
def paste (once : Bool) (st : CState) : CState :=
  match st.clipboardObject with
  | none => st
  | some c =>
    let st := { st with activeObject := none }
    let cloned := pasteClone c
    let st := { st with canvas := st.canvas ++ [cloned] }
    let st := { st with clipboardObject := some (advanceClipboard c) }
    let st := { st with activeObject := some cloned }
    if once then { st with clipboardObject := none } else st

theorem paste_iterate_clipboard (st : CState) (c : ClipObj)
    (h : st.clipboardObject = some c) :
    ∀ k : Nat, ((paste false)^[k] st).clipboardObject =
      some { c with left := c.left + 10 * k, top := c.top + 10 * k } := by
  intro k
  induction k with
  | zero =>
    rcases c with ⟨l, t, e, s, su, cs, sw⟩
    simpa using h
  | succ k ih =>
    rw [Function.iterate_succ_apply']
    generalize hu : (paste false)^[k] st = u at ih
    rcases u with ⟨cb, cv, ao⟩
    dsimp only at ih
    subst ih
    rcases c with ⟨l, t, e, s, su, cs, sw⟩
    simp only [paste, advanceClipboard]
    refine congrArg some ?_
    refine congrArg₂ (fun a b => ClipObj.mk a b e s su cs sw) ?_ ?_ <;> dsimp only <;>
      omega

/-- C8: with a non-empty buffer holding `c`, `paste()` adds `pasteClone c`
(the clone offset by +10,+10 from the buffer position, non-selectable but
interactive) to the canvas, advances the buffer by the same delta, and
selects the clone; the k-th consecutive paste selects a clone at the copied
position plus (10k,10k); with `once` set, the buffer is cleared by the first
paste and a second paste is a no-op. -/
theorem c8_paste_behavior (st : CState) (c : ClipObj)
    (h : st.clipboardObject = some c) :
    (paste false st).canvas = st.canvas ++ [pasteClone c] ∧
    (pasteClone c).left = c.left + 10 ∧ (pasteClone c).top = c.top + 10 ∧
    (pasteClone c).selectable = false ∧ (pasteClone c).evented = true ∧
    (paste false st).clipboardObject = some (advanceClipboard c) ∧
    (advanceClipboard c).left = c.left + 10 ∧
    (advanceClipboard c).top = c.top + 10 ∧
    (paste false st).activeObject = some (pasteClone c) ∧
    (∀ k : Nat, ((paste false)^[k + 1] st).activeObject =
        some { pasteClone c with left := c.left + 10 * (k + 1),
                                 top := c.top + 10 * (k + 1) }) ∧
    (paste true st).clipboardObject = none ∧
    paste true (paste true st) = paste true st := by
  refine ⟨by simp [paste, h], rfl, rfl, rfl, rfl, by simp [paste, h], rfl, rfl,
    by simp [paste, h], ?_, by simp [paste, h], ?_⟩
  · intro k
    rw [Function.iterate_succ_apply']
    have hk := paste_iterate_clipboard st c h k
    generalize hu : (paste false)^[k] st = u at hk
    rcases u with ⟨cb, cv, ao⟩
    dsimp only at hk
    subst hk
    rcases c with ⟨l, t, e, s, su, cs, sw⟩
    simp only [paste, pasteClone]
    refine congrArg some ?_
    refine congrArg₂ (fun a b => ClipObj.mk a b true false true 8 1) ?_ ?_ <;>
      dsimp only <;> omega
  · have h1 : (paste true st).clipboardObject = none := by simp [paste, h]
    generalize hv : paste true st = v at h1 ⊢
    rcases v with ⟨cb, cv, ao⟩
    dsimp only at h1
    subst h1
    rfl

/-! ### Drawing engine pointer handlers (`WhiteBoard.createCanvasEvent`) -/

/-- A pointer position (`absolutePointer`). -/
structure Point where
  x : Rat
  y : Rat
  deriving DecidableEq, Repr

/-- `DrawingType` of the WhiteBoard. -/
inductive DrawingType
  | paint
  | line
  | rect
  | ellipse
  | circle
  | select
  deriving DecidableEq, Repr

/-- Geometry of an in-progress shape object. -/
inductive ShapeObj
  | line (x1 y1 x2 y2 : Rat)
  | rect (top left width height : Rat)
  | ellipse (top left rx ry : Rat)
  | circle (top left radius : Rat)
  deriving DecidableEq, Repr

/-- Drawing-engine state: the canvas object list, a shape store, the gesture
bookkeeping fields of the WhiteBoard class, and the canvas-to-hook wiring
flags toggled by `offEvent` / `listenEvent`. The hook logs record which
targets were actually delivered to the object-added / object-removed hooks. -/
structure WBState where
  canvas : List ObjId
  shapes : ObjId → Option ShapeObj
  drawingType : DrawingType
  isDrawingMode : Bool
  skipTargetFind : Bool
  startPoint : Option Point
  currentObject : Option ObjId
  isMouseDown : Bool
  activeObject : Option ObjId
  nextId : ObjId
  addedWired : Bool
  removedWired : Bool
  addedHookLog : List ObjId
  removedHookLog : List ObjId

def hasActiveObject (st : WBState) : Bool := st.activeObject.isSome

def isSelectMode (st : WBState) : Bool := st.drawingType == .select

/-- `mouseEventDisabled` getter (the canvas itself always exists in the
model). -/
def mouseEventDisabled (st : WBState) : Bool :=
  hasActiveObject st || st.isDrawingMode || isSelectMode st

def offAdded (st : WBState) : WBState := { st with addedWired := false }

def listenAdded (st : WBState) : WBState := { st with addedWired := true }

def offRemoved (st : WBState) : WBState := { st with removedWired := false }

def listenRemoved (st : WBState) : WBState := { st with removedWired := true }

/-- `this.add(this.currentObject!)`: append to the canvas; the object-added
hook sees it only while the wiring is on. -/
def canvasAddCurrent (st : WBState) : WBState :=
  match st.currentObject with
  | none => st
  | some i =>
    let st := { st with canvas := st.canvas ++ [i] }
    if st.addedWired then { st with addedHookLog := st.addedHookLog ++ [i] } else st

/-- `this.canvas.remove(obj)`: fabric removes a present object and fires
`object:removed`, delivered to the hook only while the wiring is on. -/
def canvasRemove (i : ObjId) (st : WBState) : WBState :=
  if i ∈ st.canvas then
    let st := { st with canvas := st.canvas.erase i }
    if st.removedWired then { st with removedHookLog := st.removedHookLog ++ [i] } else st
  else st

/-- The `mouse:down` handler: start a gesture, create the zero-extent shape
for the active tool, and add it to the canvas with the object-added wiring
temporarily off. -/
def mouseDown (p : Point) (st : WBState) : WBState :=
  let st := { st with isMouseDown := true }
  if mouseEventDisabled st then st
  else
    let st := { st with startPoint := some p }
    let created : Option ShapeObj :=
      match st.drawingType with
      | .line => some (.line p.x p.y p.x p.y)
      | .rect => some (.rect p.y p.x 0 0)
      | .ellipse => some (.ellipse p.y p.x 0 0)
      | .circle => some (.circle p.y p.x 0)
      | _ => none
    let st :=
      match created with
      | some sh => { st with currentObject := some st.nextId,
                             shapes := Function.update st.shapes st.nextId (some sh),
                             nextId := st.nextId + 1 }
      | none => st
    listenAdded (canvasAddCurrent (offAdded st))

def drawLine (e : Point) (st : WBState) : WBState :=
  match st.currentObject with
  | none => st
  | some i =>
    match st.shapes i with
    | some (.line x1 y1 _ _) =>
        { st with shapes := Function.update st.shapes i (some (.line x1 y1 e.x e.y)) }
    | _ => st

def drawRect (e : Point) (st : WBState) : WBState :=
  match st.startPoint, st.currentObject with
  | some sp, some i =>
      let top := min sp.y e.y
      let left := min sp.x e.x
      let width := |sp.x - e.x|
      let height := |sp.y - e.y|
      { st with shapes := Function.update st.shapes i (some (.rect top left width height)) }
  | _, _ => st

def drawEllipse (e : Point) (st : WBState) : WBState :=
  match st.startPoint, st.currentObject with
  | some sp, some i =>
      let rx := |sp.x - e.x| / 2
      let ry := |sp.y - e.y| / 2
      let top := if e.y > sp.y then sp.y else sp.y - ry * 2
      let left := if e.x > sp.x then sp.x else sp.x - rx * 2
      { st with shapes := Function.update st.shapes i (some (.ellipse top left rx ry)) }
  | _, _ => st

def drawCircle (e : Point) (st : WBState) : WBState :=
  match st.startPoint, st.currentObject with
  | some sp, some i =>
      let radius := min |sp.x - e.x| |sp.y - e.y| / 2
      let top := if e.y > sp.y then sp.y else sp.y - radius * 2
      let left := if e.x > sp.x then sp.x else sp.x - radius * 2
      { st with shapes := Function.update st.shapes i (some (.circle top left radius)) }
  | _, _ => st

/-- The `mouse:move` handler. -/
def mouseMove (p : Point) (st : WBState) : WBState :=
  if mouseEventDisabled st || !st.isMouseDown then st
  else
    match st.drawingType with
    | .line => drawLine p st
    | .rect => drawRect p st
    | .ellipse => drawEllipse p st
    | .circle => drawCircle p st
    | _ => st

/-- The `mouse:up` handler: a zero-drag gesture (up exactly at the start
point) removes the in-progress shape with the object-removed wiring off;
otherwise the shape is finalized, selected, and announced on the
object-added hook. -/
def mouseUp (p : Point) (st : WBState) : WBState :=
  let st := { st with isMouseDown := false }
  if mouseEventDisabled st then st
  else
    match st.currentObject with
    | some i =>
      if st.startPoint = some p then
        listenRemoved (canvasRemove i (offRemoved st))
      else
        { st with activeObject := some i, skipTargetFind := false,
                  addedHookLog := st.addedHookLog ++ [i], currentObject := none }
    | none => st

/-- The four shape-drawing tools. -/
def isShapeType : DrawingType → Bool
  | .line => true
  | .rect => true
  | .ellipse => true
  | .circle => true
  | _ => false

theorem mouseMove_preserves (q : Point) (s : WBState) :
    (mouseMove q s).canvas = s.canvas ∧
    (mouseMove q s).currentObject = s.currentObject ∧
    (mouseMove q s).startPoint = s.startPoint ∧
    (mouseMove q s).activeObject = s.activeObject ∧
    (mouseMove q s).isMouseDown = s.isMouseDown ∧
    (mouseMove q s).isDrawingMode = s.isDrawingMode ∧
    (mouseMove q s).drawingType = s.drawingType := by
  unfold mouseMove drawLine drawRect drawEllipse drawCircle
  split
  · exact ⟨rfl, rfl, rfl, rfl, rfl, rfl, rfl⟩
  · split <;> (try split) <;> (try split) <;> exact ⟨rfl, rfl, rfl, rfl, rfl, rfl, rfl⟩

theorem foldl_mouseMove_preserves (moves : List Point) :
    ∀ s : WBState,
      (moves.foldl (fun s q => mouseMove q s) s).canvas = s.canvas ∧
      (moves.foldl (fun s q => mouseMove q s) s).currentObject = s.currentObject ∧
      (moves.foldl (fun s q => mouseMove q s) s).startPoint = s.startPoint ∧
      (moves.foldl (fun s q => mouseMove q s) s).activeObject = s.activeObject ∧
      (moves.foldl (fun s q => mouseMove q s) s).isMouseDown = s.isMouseDown ∧
      (moves.foldl (fun s q => mouseMove q s) s).isDrawingMode = s.isDrawingMode ∧
      (moves.foldl (fun s q => mouseMove q s) s).drawingType = s.drawingType := by
  induction moves with
  | nil => intro s; exact ⟨rfl, rfl, rfl, rfl, rfl, rfl, rfl⟩
  | cons q qs ih =>
    intro s
    have h1 := mouseMove_preserves q s
    have h2 := ih (mouseMove q s)
    exact ⟨h2.1.trans h1.1, h2.2.1.trans h1.2.1, h2.2.2.1.trans h1.2.2.1,
      h2.2.2.2.1.trans h1.2.2.2.1, h2.2.2.2.2.1.trans h1.2.2.2.2.1,
      h2.2.2.2.2.2.1.trans h1.2.2.2.2.2.1, h2.2.2.2.2.2.2.trans h1.2.2.2.2.2.2⟩

theorem mouseDown_shape (st : WBState) (p : Point)
    (hmode : isShapeType st.drawingType = true)
    (hdm : st.isDrawingMode = false)
    (hao : st.activeObject = none) :
    (mouseDown p st).canvas = st.canvas ++ [st.nextId] ∧
    (mouseDown p st).currentObject = some st.nextId ∧
    (mouseDown p st).startPoint = some p ∧
    (mouseDown p st).activeObject = none ∧
    (mouseDown p st).isDrawingMode = false ∧
    (mouseDown p st).drawingType = st.drawingType := by
  cases hdt : st.drawingType <;>
    simp_all [mouseDown, mouseEventDisabled, hasActiveObject, isSelectMode, isShapeType,
      offAdded, canvasAddCurrent, listenAdded]

theorem mouseUp_discards (u : WBState) (p : Point) (base : List ObjId) (i : ObjId)
    (hc : u.canvas = base ++ [i])
    (hcur : u.currentObject = some i)
    (hsp : u.startPoint = some p)
    (hact : u.activeObject = none)
    (hidm : u.isDrawingMode = false)
    (hsel : (u.drawingType == DrawingType.select) = false)
    (hfresh : i ∉ base) :
    (mouseUp p u).canvas = base := by
  rcases u with ⟨cv, sh, dt, idm, stf, sp, cur, imd, ao, nid, aw, rww, ahl, rhl⟩
  dsimp only at hc hcur hsp hact hidm hsel
  subst hc; subst hcur; subst hsp; subst hact; subst hidm
  have he : (base ++ [i]).erase i = base := by
    rw [List.erase_append_right _ (by simpa using hfresh)]
    simp
  simp [mouseUp, mouseEventDisabled, hasActiveObject, isSelectMode, hsel,
    offRemoved, listenRemoved, canvasRemove, he]

/-- C7: a pointer gesture in a shape-drawing mode whose pointer-up position
equals the pointer-down start point leaves the canvas object list exactly as
it was before the gesture: the zero-extent shape added at pointer-down is
removed again at pointer-up, and every handler is total (no error). -/
theorem c7_zero_drag_discard (st : WBState) (p : Point) (moves : List Point)
    (hmode : isShapeType st.drawingType = true)
    (hdm : st.isDrawingMode = false)
    (hao : st.activeObject = none)
    (hfresh : st.nextId ∉ st.canvas) :
    (mouseUp p (moves.foldl (fun s q => mouseMove q s) (mouseDown p st))).canvas
      = st.canvas := by
  have hd := mouseDown_shape st p hmode hdm hao
  have hf := foldl_mouseMove_preserves moves (mouseDown p st)
  refine mouseUp_discards _ p st.canvas st.nextId ?_ ?_ ?_ ?_ ?_ ?_ hfresh
  · exact hf.1.trans hd.1
  · exact hf.2.1.trans hd.2.1
  · exact hf.2.2.1.trans hd.2.2.1
  · exact hf.2.2.2.1.trans hd.2.2.2.1
  · exact hf.2.2.2.2.2.1.trans hd.2.2.2.2.1
  · rw [hf.2.2.2.2.2.2, hd.2.2.2.2.2]
    cases h : st.drawingType <;> simp_all [isShapeType]

/-- C9: the four empty-operation no-ops. `redo()` with an empty redo stack,
`undo()` with an empty undo stack, `copy()` without an active selection and
`remove()` without arguments and without an active object all return the
state completely unchanged (canvas, Clipboard Buffer, both history stacks)
and raise no error (all functions are total). -/
theorem c9_empty_noops :
    (∀ st : PState, st.redoSnapshot = [] → redo st = st) ∧
    (∀ st : PState, st.undoSnapshot = [] → undo st = st) ∧
    (∀ st : CState, st.activeObject = none → copy st = st) ∧
    (∀ st : PState, st.activeObject = none → wbRemove [] st = st) := by
  refine ⟨redo_nil, undo_nil, ?_, ?_⟩
  · intro st h
    rcases st with ⟨cb, cv, ao⟩
    dsimp only at h
    subst h
    rfl
  · intro st h
    simp [wbRemove, h]

/-- C10: replaying a transform snapshot (any action other than add, remove,
group, ungroup) through `redo()` or `undo()` restores exactly the five
attributes angle, scaleX, scaleY, left, top from the snapshot's original
record (an absent record behaves as the empty one, whose missing keys set
the attributes to `undefined`, i.e. `none`), leaves every other attribute
(width, height, stroke — and every other object) unchanged, and pushes onto
the opposite stack a snapshot capturing only those same five attributes. -/
theorem c10_transform_replay (st : PState) (act : Action) (x : ObjId)
    (o : Option Original) (rest : List Snapshot)
    (ht : isTransformAction act = true)
    (h1 : st.addListeners = 1) (h2 : st.removeListeners = 1) :
    (st.redoSnapshot = ⟨act, x, o⟩ :: rest →
      ((redo st).attrs x).angle = (o.getD emptyOriginal).angle ∧
      ((redo st).attrs x).scaleX = (o.getD emptyOriginal).scaleX ∧
      ((redo st).attrs x).scaleY = (o.getD emptyOriginal).scaleY ∧
      ((redo st).attrs x).left = (o.getD emptyOriginal).left ∧
      ((redo st).attrs x).top = (o.getD emptyOriginal).top ∧
      ((redo st).attrs x).width = (st.attrs x).width ∧
      ((redo st).attrs x).height = (st.attrs x).height ∧
      ((redo st).attrs x).stroke = (st.attrs x).stroke ∧
      (∀ y : ObjId, y ≠ x → (redo st).attrs y = st.attrs y) ∧
      (redo st).undoSnapshot = ⟨act, x, some (fiveOf (st.attrs x))⟩ :: st.undoSnapshot) ∧
    (st.undoSnapshot = ⟨act, x, o⟩ :: rest →
      ((undo st).attrs x).angle = (o.getD emptyOriginal).angle ∧
      ((undo st).attrs x).scaleX = (o.getD emptyOriginal).scaleX ∧
      ((undo st).attrs x).scaleY = (o.getD emptyOriginal).scaleY ∧
      ((undo st).attrs x).left = (o.getD emptyOriginal).left ∧
      ((undo st).attrs x).top = (o.getD emptyOriginal).top ∧
      ((undo st).attrs x).width = (st.attrs x).width ∧
      ((undo st).attrs x).height = (st.attrs x).height ∧
      ((undo st).attrs x).stroke = (st.attrs x).stroke ∧
      (∀ y : ObjId, y ≠ x → (undo st).attrs y = st.attrs y) ∧
      (undo st).redoSnapshot = ⟨act, x, some (fiveOf (st.attrs x))⟩ :: st.redoSnapshot) := by
  constructor
  · intro hr
    rw [redo_transform_eq st act x o rest hr ht h1 h2]
    dsimp only
    simp only [Function.update_same]
    exact ⟨rfl, rfl, rfl, rfl, rfl, rfl, rfl, rfl,
      fun y hy => Function.update_noteq hy _ _, trivial⟩
  · intro hu2
    rw [undo_transform_eq st act x o rest hu2 ht h1 h2]
    dsimp only
    simp only [Function.update_same]
    exact ⟨rfl, rfl, rfl, rfl, rfl, rfl, rfl, rfl,
      fun y hy => Function.update_noteq hy _ _, trivial⟩

/-! ### Concrete sample states for witnesses -/

def sampleWB : WBState :=
  { canvas := [], shapes := fun _ => none, drawingType := .rect,
    isDrawingMode := false, skipTargetFind := true, startPoint := none,
    currentObject := none, isMouseDown := false, activeObject := none,
    nextId := 0, addedWired := true, removedWired := true,
    addedHookLog := [], removedHookLog := [] }

def sampleClip : ClipObj := ⟨100, 50, false, true, true, 3, 2⟩

def sampleCState : CState := ⟨some sampleClip, [], none⟩

def sampleSnap : Snapshot := ⟨.drag, 0, some ⟨some 1, some 2, some 3, some 4, some 5⟩⟩

def sampleP : PState :=
  { initState with redoSnapshot := [sampleSnap], undoSnapshot := [sampleSnap] }

/-! ### Witnesses -/

theorem c2_witness :
    ((redo^[2] (applyUserOps initState [UserOp.add 0, UserOp.remove 0])).canvas
        : Multiset ObjId) = (initState.canvas : Multiset ObjId) ∧
    (redo^[2] (applyUserOps initState [UserOp.add 0, UserOp.remove 0])).attrs
      = initState.attrs :=
  c2_redo_reverts_ops [UserOp.add 0, UserOp.remove 0] initState rfl rfl rfl (by decide)

theorem c3_witness :
    ((redo (undo (redo (applyUserOp initState (.add 0))))).canvas : Multiset ObjId)
        = ((redo (applyUserOp initState (.add 0))).canvas : Multiset ObjId) ∧
    (redo (undo (redo (applyUserOp initState (.add 0))))).attrs
        = (redo (applyUserOp initState (.add 0))).attrs ∧
    (undo (redo (applyUserOp initState (.add 0)))).redoSnapshot
        = replayRecord ⟨.add, 0, some emptyOriginal⟩ (redo (applyUserOp initState (.add 0)))
            :: (redo (applyUserOp initState (.add 0))).redoSnapshot ∧
    (undo (redo (applyUserOp initState (.add 0)))).undoSnapshot = [] ∧
    (redo (undo (redo (applyUserOp initState (.add 0))))).redoSnapshot
        = (redo (applyUserOp initState (.add 0))).redoSnapshot :=
  c3_redo_after_undo _ ⟨.add, 0, some emptyOriginal⟩ [] (by decide) (by decide)
    (by decide) (by decide) (by decide) (by decide)

theorem c4_witness :
    ((recordRedo ⟨.add, 0, none⟩ true initState).redoSnapshot
        = ⟨.add, 0, none⟩ :: initState.redoSnapshot ∧
      (recordRedo ⟨.add, 0, none⟩ true initState).undoSnapshot = [] ∧
      (recordRedo ⟨.add, 0, none⟩ false initState).redoSnapshot
        = ⟨.add, 0, none⟩ :: initState.redoSnapshot ∧
      (recordRedo ⟨.add, 0, none⟩ false initState).undoSnapshot
        = initState.undoSnapshot) ∧
    (applyUserOp initState (.add 0)).undoSnapshot = [] ∧
    ((undo (redo (applyUserOp initState (.add 0)))).redoSnapshot
        = replayRecord ⟨.add, 0, some emptyOriginal⟩ (redo (applyUserOp initState (.add 0)))
            :: (redo (applyUserOp initState (.add 0))).redoSnapshot ∧
      (undo (redo (applyUserOp initState (.add 0)))).undoSnapshot = []) :=
  ⟨c4_push_policy.1 ⟨.add, 0, none⟩ initState,
   c4_push_policy.2.1 initState (.add 0) rfl rfl rfl (by decide),
   c4_push_policy.2.2 (redo (applyUserOp initState (.add 0)))
     ⟨.add, 0, some emptyOriginal⟩ [] (by decide) (by decide) (by decide) (by decide)
     (by decide)⟩

theorem c5_witness :
    (applyUserOp (undo (redo (applyUserOp initState (.add 0)))) (.add 1)).undoSnapshot
        = [] ∧
    undo (applyUserOp (undo (redo (applyUserOp initState (.add 0)))) (.add 1))
        = applyUserOp (undo (redo (applyUserOp initState (.add 0)))) (.add 1) :=
  c5_new_op_clears_undo _ (.add 1) (by decide) (by decide) (by decide) (by decide)

theorem c6_witness :
    ((pluginInit emptyBoard).groupedListeners = emptyBoard.groupedListeners ∧
      (pluginInit emptyBoard).ungroupedListeners = emptyBoard.ungroupedListeners) ∧
    fireGrouped 0 initState = initState ∧
    fireUngrouped 0 initState = initState ∧
    ((redo { initState with redoSnapshot := [⟨.group, 0, none⟩] }).ungroupCalls
        = ({ initState with redoSnapshot := [⟨.group, 0, none⟩] } : PState).ungroupCalls
            + 1 ∧
      (redo { initState with redoSnapshot := [⟨.group, 0, none⟩] }).groupCalls
        = ({ initState with redoSnapshot := [⟨.group, 0, none⟩] } : PState).groupCalls) ∧
    ((redo { initState with redoSnapshot := [⟨.ungroup, 0, none⟩] }).groupCalls
        = ({ initState with redoSnapshot := [⟨.ungroup, 0, none⟩] } : PState).groupCalls
            + 1 ∧
      (redo { initState with redoSnapshot := [⟨.ungroup, 0, none⟩] }).ungroupCalls
        = ({ initState with redoSnapshot := [⟨.ungroup, 0, none⟩] } : PState).ungroupCalls) :=
  ⟨c6_group_ungroup.1 emptyBoard,
   c6_group_ungroup.2.1 0 initState rfl,
   c6_group_ungroup.2.2.1 0 initState rfl,
   c6_group_ungroup.2.2.2.1 _ ⟨.group, 0, none⟩ [] (by decide) (by decide),
   c6_group_ungroup.2.2.2.2 _ ⟨.ungroup, 0, none⟩ [] (by decide) (by decide)⟩

theorem c7_witness :
    (mouseUp ⟨5, 5⟩ ([⟨7, 8⟩].foldl (fun s q => mouseMove q s)
        (mouseDown ⟨5, 5⟩ sampleWB))).canvas = sampleWB.canvas :=
  c7_zero_drag_discard sampleWB ⟨5, 5⟩ [⟨7, 8⟩] (by decide) rfl rfl (by decide)

theorem c8_witness :
    (paste false sampleCState).canvas = sampleCState.canvas ++ [pasteClone sampleClip] ∧
    (pasteClone sampleClip).left = sampleClip.left + 10 ∧
    (pasteClone sampleClip).top = sampleClip.top + 10 ∧
    (pasteClone sampleClip).selectable = false ∧
    (pasteClone sampleClip).evented = true ∧
    (paste false sampleCState).clipboardObject = some (advanceClipboard sampleClip) ∧
    (advanceClipboard sampleClip).left = sampleClip.left + 10 ∧
    (advanceClipboard sampleClip).top = sampleClip.top + 10 ∧
    (paste false sampleCState).activeObject = some (pasteClone sampleClip) ∧
    (∀ k : Nat, ((paste false)^[k + 1] sampleCState).activeObject =
        some { pasteClone sampleClip with left := sampleClip.left + 10 * (k + 1),
                                          top := sampleClip.top + 10 * (k + 1) }) ∧
    (paste true sampleCState).clipboardObject = none ∧
    paste true (paste true sampleCState) = paste true sampleCState :=
  c8_paste_behavior sampleCState sampleClip rfl

theorem c9_witness :
    redo initState = initState ∧
    undo initState = initState ∧
    copy (⟨none, [], none⟩ : CState) = (⟨none, [], none⟩ : CState) ∧
    wbRemove [] initState = initState :=
  ⟨c9_empty_noops.1 initState rfl, c9_empty_noops.2.1 initState rfl,
   c9_empty_noops.2.2.1 ⟨none, [], none⟩ rfl, c9_empty_noops.2.2.2 initState rfl⟩

theorem c10_witness :
    (((redo sampleP).attrs 0).angle
        = ((sampleSnap.original).getD emptyOriginal).angle ∧
      ((redo sampleP).attrs 0).scaleX
        = ((sampleSnap.original).getD emptyOriginal).scaleX ∧
      ((redo sampleP).attrs 0).scaleY
        = ((sampleSnap.original).getD emptyOriginal).scaleY ∧
      ((redo sampleP).attrs 0).left
        = ((sampleSnap.original).getD emptyOriginal).left ∧
      ((redo sampleP).attrs 0).top
        = ((sampleSnap.original).getD emptyOriginal).top ∧
      ((redo sampleP).attrs 0).width = (sampleP.attrs 0).width ∧
      ((redo sampleP).attrs 0).height = (sampleP.attrs 0).height ∧
      ((redo sampleP).attrs 0).stroke = (sampleP.attrs 0).stroke ∧
      (∀ y : ObjId, y ≠ 0 → (redo sampleP).attrs y = sampleP.attrs y) ∧
      (redo sampleP).undoSnapshot
        = ⟨.drag, 0, some (fiveOf (sampleP.attrs 0))⟩ :: sampleP.undoSnapshot) ∧
    (((undo sampleP).attrs 0).angle
        = ((sampleSnap.original).getD emptyOriginal).angle ∧
      ((undo sampleP).attrs 0).scaleX
        = ((sampleSnap.original).getD emptyOriginal).scaleX ∧
      ((undo sampleP).attrs 0).scaleY
        = ((sampleSnap.original).getD emptyOriginal).scaleY ∧
      ((undo sampleP).attrs 0).left
        = ((sampleSnap.original).getD emptyOriginal).left ∧
      ((undo sampleP).attrs 0).top
        = ((sampleSnap.original).getD emptyOriginal).top ∧
      ((undo sampleP).attrs 0).width = (sampleP.attrs 0).width ∧
      ((undo sampleP).attrs 0).height = (sampleP.attrs 0).height ∧
      ((undo sampleP).attrs 0).stroke = (sampleP.attrs 0).stroke ∧
      (∀ y : ObjId, y ≠ 0 → (undo sampleP).attrs y = sampleP.attrs y) ∧
      (undo sampleP).redoSnapshot
        = ⟨.drag, 0, some (fiveOf (sampleP.attrs 0))⟩ :: sampleP.redoSnapshot) :=
  ⟨(c10_transform_replay sampleP .drag 0 sampleSnap.original [] rfl rfl rfl).1 rfl,
   (c10_transform_replay sampleP .drag 0 sampleSnap.original [] rfl rfl rfl).2 rfl⟩

end IconBoard
